import Mathlib

/-!
Verification development for the Instagram batch-metrics dashboard.

The embedding covers the three source files of the repository:

* `src/web/src/app/api/analyze/route.ts` — the `POST` handler of the Batch
  Aggregator (validation, trim/dedupe, concurrent fan-out, two-track
  settlement).
* `src/web/src/components/dashboard.tsx` — the Sort Engine
  (`sortedRows` comparator), the delimited-text export
  (`exportCsv` / `formatCellForExport` / `standardNumber`) and the
  spreadsheet export (`exportExcel` / `formatSummary`).

JavaScript strings are modelled by Lean `String` (a list of characters),
JavaScript numbers by `ℚ` (the record fields that the spec declares as
non-negative integers are modelled by `Nat`), and absent (`null`) values by
`Option`.  The handful of ECMAScript / Intl library routines the code calls
(`String.prototype.trim`, `Array.prototype.join`, `String.prototype.replace`,
`localeCompare`, `Intl.NumberFormat`, `Number.prototype.toFixed`) are given
executable Lean models below, each next to the definition that uses it.
-/

/-! ## Decimal-digit rendering (shared by the number-formatting models) -/

/-- The decimal digit character of `d % 10`. -/
def digitChar (d : Nat) : Char :=
  match d % 10 with
  | 0 => '0' | 1 => '1' | 2 => '2' | 3 => '3' | 4 => '4'
  | 5 => '5' | 6 => '6' | 7 => '7' | 8 => '8' | _ => '9'

/-- Fuel-driven base-10 rendering of a natural number (most significant digit
first).  The fuel is only there to make the recursion structural. -/
def digitsOfAux : Nat → Nat → String
  | 0, _ => ""
  | fuel + 1, m =>
      if m < 10 then ⟨[digitChar m]⟩
      else digitsOfAux fuel (m / 10) ++ ⟨[digitChar (m % 10)]⟩

/-- Base-10 rendering of a natural number, e.g. `digitsOf 1000000 = "1000000"`. -/
def digitsOf (n : Nat) : String := digitsOfAux (n + 1) n

/-- Base-10 rendering of an integer, modelling ECMAScript `String(value)` and
template-literal interpolation for integral numbers. -/
def intRepr (i : Int) : String :=
  if i < 0 then "-" ++ digitsOf i.natAbs else digitsOf i.natAbs

/-- A two-digit zero-padded group, e.g. `pad2 7 = "07"` (used by the
`toFixed(2)` model).  `digitChar` already reduces its argument mod 10. -/
def pad2 (b : Nat) : String := ⟨[digitChar (b / 10), digitChar b]⟩

/-- A three-digit zero-padded group, e.g. `pad3 42 = "042"` (used by the
`Intl` grouping model). -/
def pad3 (b : Nat) : String := ⟨[digitChar (b / 100), digitChar (b / 10), digitChar b]⟩

/-! ## `standardNumber` — `Intl.NumberFormat("en-US", { maximumFractionDigits: 0 })`

dashboard.tsx lines 40-42.  For a natural number the formatter emits the
decimal digits in groups of three separated by `","` (en-US locale uses
grouping by default), and no fraction digits. -/

/-- Fuel-driven thousands grouping; fuel only makes the recursion structural. -/
def standardNumberFormatAux : Nat → Nat → String
  | 0, _ => ""
  | fuel + 1, m =>
      if m < 1000 then digitsOf m
      else standardNumberFormatAux fuel (m / 1000) ++ "," ++ pad3 (m % 1000)

/-- Model of `standardNumber.format` (dashboard.tsx line 40) applied to a
natural number: en-US grouped decimal notation, e.g. `1000000 ↦ "1,000,000"`. -/
def standardNumberFormat (n : Nat) : String := standardNumberFormatAux (n + 1) n

/-! ## `Number.prototype.toFixed(2)`

Exact-rational model of `value.toFixed(2)`: the integer `t` closest to
`100 * q` (ties towards the larger integer, per the ECMAScript `toFixed`
algorithm), rendered as `⟨integer part⟩.⟨two digits⟩`.
`⌊100q + 1/2⌋ = (200·num + den) ediv (2·den)`, computed on the numerator and
denominator directly so that the definition evaluates by kernel reduction. -/

/-- `toFixed(2)` for a non-negative rational given as `num / den`. -/
def toFixed2Core (num : Int) (den : Nat) : String :=
  let t : Nat := (Int.ediv (200 * num + (den : Int)) (2 * (den : Int))).toNat
  digitsOf (t / 100) ++ "." ++ pad2 (t % 100)

/-- Model of `value.toFixed(2)` (dashboard.tsx lines 142 and 394). -/
def toFixed2 (q : ℚ) : String :=
  if q.num < 0 then "-" ++ toFixed2Core (-q.num) q.den
  else toFixed2Core q.num q.den

/-! ## `String.prototype.trim` -/

/-- The whitespace characters recognised by the trim model (the common
subset of the ECMAScript WhiteSpace / LineTerminator productions). -/
def jsWhitespace (c : Char) : Bool :=
  c == ' ' || c == '\t' || c == '\n' || c == '\r'

/-- Model of `String.prototype.trim`: drop leading and trailing whitespace. -/
def jsTrim (s : String) : String :=
  ⟨((s.data.dropWhile jsWhitespace).reverse.dropWhile jsWhitespace).reverse⟩

/-! ## `String.prototype.localeCompare`

The dashboard calls `String(a).localeCompare(String(b))`.  The model compares
character sequences lexicographically and returns `-1`, `0` or `1`; this
realises the consistent-comparator contract of `localeCompare` (the en-US
collation details beyond ordering consistency are abstracted). -/

/-- Lexicographic three-way comparison of character lists. -/
def lexCompareChars : List Char → List Char → Int
  | [], [] => 0
  | [], _ :: _ => -1
  | _ :: _, [] => 1
  | a :: as, b :: bs =>
      if a < b then -1 else if b < a then 1 else lexCompareChars as bs

/-- Model of `a.localeCompare(b)`. -/
def localeCompare (a b : String) : Int := lexCompareChars a.data b.data

/-! ## Data model (spec §3, `InstagramMetrics` from `@/lib/socialblade`)

Modelled from the spec: the `InstagramMetrics` type itself lives in the
repository's `src/web/src/lib/socialblade.ts`, which is outside the provided
sources; its fields are taken from spec §3 (`MetricsRecord`): integer metrics
are `Nat` or absent, the engagement rate is a non-negative real (here `ℚ`) or
absent, category/location are strings or absent.  Absent is encoded as
`none` (JSON `null`). -/

structure InstagramMetrics where
  displayName : String
  handle : String
  followers : Option Nat
  averageViews : Option Nat
  averageLikes : Option Nat
  engagementRate : Option ℚ
  category : Option String
  location : Option String
deriving DecidableEq

/-- The eight column keys of the dashboard table (dashboard.tsx lines 6-14). -/
inductive ColumnKey
  | displayName | handle | followers | averageViews
  | engagementRate | category | location | averageLikes
deriving DecidableEq

/-- `ColumnDefinition` (dashboard.tsx lines 16-20). -/
structure ColumnDefinition where
  key : ColumnKey
  label : String
  isNumeric : Bool := false

/-- The static `columns` table (dashboard.tsx lines 24-33), in source order. -/
def columns : List ColumnDefinition :=
  [ ⟨.displayName, "Name", false⟩,
    ⟨.handle, "Handle", false⟩,
    ⟨.followers, "Followers", true⟩,
    ⟨.averageViews, "Avg. Views", true⟩,
    ⟨.engagementRate, "Eng. Rate", true⟩,
    ⟨.category, "Category", false⟩,
    ⟨.location, "Location", false⟩,
    ⟨.averageLikes, "Avg. Likes", true⟩ ]

/-- `SortOrder` (dashboard.tsx line 22). -/
inductive SortOrder
  | asc | desc
deriving DecidableEq

/-- The value a comparison looks at: a JavaScript number or string. -/
inductive SortValue
  | num (q : ℚ)
  | str (s : String)
deriving DecidableEq

/-- `extractSortValue` (dashboard.tsx lines 357-378).  `none` is the JS
`null` of an absent metric. -/
def extractSortValue (row : InstagramMetrics) (key : ColumnKey) : Option SortValue :=
  match key with
  | .displayName => some (.str row.displayName)
  | .handle => some (.str row.handle)
  | .followers => row.followers.map (fun n => .num (n : ℚ))
  | .averageViews => row.averageViews.map (fun n => .num (n : ℚ))
  | .engagementRate => row.engagementRate.map .num
  | .category => row.category.map .str
  | .location => row.location.map .str
  | .averageLikes => row.averageLikes.map (fun n => .num (n : ℚ))

/-- ECMAScript `String(value)` applied to a sort value.  The numeric case is
exact for integers; for non-integral rationals it is a stand-in (that branch
is unreachable: for every fixed column the present values are either all
numbers or all strings, see `extract_uniform` below, so `String(...)` is only
ever applied to the string-valued columns). -/
def ratToJsString (q : ℚ) : String :=
  if q.den = 1 then intRepr q.num else intRepr q.num ++ "/" ++ digitsOf q.den

/-- String form of a sort value, as `String(aValue)` in dashboard.tsx line 78. -/
def SortValue.toJsString : SortValue → String
  | .str s => s
  | .num q => ratToJsString q

/-- The comparator body of `sortedRows` (dashboard.tsx lines 65-80), returning
the (sign-relevant) comparison number. -/
def compareRows (sortOrder : SortOrder) (sortKey : ColumnKey)
    (a b : InstagramMetrics) : ℚ :=
  match extractSortValue a sortKey, extractSortValue b sortKey with
  | none, none => 0
  | none, some _ => if sortOrder = .asc then 1 else -1
  | some _, none => if sortOrder = .asc then -1 else 1
  | some (.num x), some (.num y) => if sortOrder = .asc then x - y else y - x
  | some av, some bv =>
      if sortOrder = .asc
      then ((localeCompare av.toJsString bv.toJsString : Int) : ℚ)
      else ((localeCompare bv.toJsString av.toJsString : Int) : ℚ)

/-- The sort relation induced by the comparator: `a` may come before `b`
exactly when the comparator result is non-positive. -/
def leRows (sortOrder : SortOrder) (sortKey : ColumnKey)
    (a b : InstagramMetrics) : Prop :=
  compareRows sortOrder sortKey a b ≤ 0

/-- Executable test for `leRows` (numeric comparisons carried out on
numerators/denominators so that concrete instances reduce in the kernel). -/
def leRowsB (sortOrder : SortOrder) (sortKey : ColumnKey)
    (a b : InstagramMetrics) : Bool :=
  match extractSortValue a sortKey, extractSortValue b sortKey with
  | none, none => true
  | none, some _ => decide (sortOrder = .desc)
  | some _, none => decide (sortOrder = .asc)
  | some (.num x), some (.num y) =>
      if sortOrder = .asc
      then decide (x.num * (y.den : Int) ≤ y.num * (x.den : Int))
      else decide (y.num * (x.den : Int) ≤ x.num * (y.den : Int))
  | some av, some bv =>
      if sortOrder = .asc
      then decide (localeCompare av.toJsString bv.toJsString ≤ 0)
      else decide (localeCompare bv.toJsString av.toJsString ≤ 0)

theorem leRowsB_iff (o : SortOrder) (k : ColumnKey) (a b : InstagramMetrics) :
    leRowsB o k a b = true ↔ leRows o k a b := by
  unfold leRowsB leRows compareRows
  rcases ha : extractSortValue a k with _ | av <;>
    rcases hb : extractSortValue b k with _ | bv
  · simp
  · rcases o <;> simp
  · rcases o <;> simp
  · rcases av with x | sa <;> rcases bv with y | sb <;> rcases o <;>
      simp [sub_nonpos, ← Rat.le_def, Int.cast_nonpos]

instance (o : SortOrder) (k : ColumnKey) (a b : InstagramMetrics) :
    Decidable (leRows o k a b) :=
  decidable_of_iff (leRowsB o k a b = true) (leRowsB_iff o k a b)

/-- `sortedRows` (dashboard.tsx lines 62-83): `[...rows].sort(comparator)`.
`Array.prototype.sort` is required by ECMAScript to be stable and, for a
consistent comparator, orders the copy by the non-positive-comparator
relation; both properties are realised by a stable insertion sort on that
relation. -/
def sortedRows (rows : List InstagramMetrics) (sortKey : ColumnKey)
    (sortOrder : SortOrder) : List InstagramMetrics :=
  rows.insertionSort (leRows sortOrder sortKey)

/-! ## Export Formatter — delimited text (dashboard.tsx lines 161-184, 380-398) -/

/-- `formatCellForExport` (dashboard.tsx lines 380-398). -/
def formatCellForExport (row : InstagramMetrics) (column : ColumnDefinition) : String :=
  match column.key with
  | .handle => "@" ++ row.handle
  | .followers =>
      match row.followers with
      | none => ""
      | some n => standardNumberFormat n
  | .averageViews =>
      match row.averageViews with
      | none => ""
      | some n => standardNumberFormat n
  | .averageLikes =>
      match row.averageLikes with
      | none => ""
      | some n => standardNumberFormat n
  | .engagementRate =>
      match row.engagementRate with
      | none => ""
      | some q => toFixed2 q
  | .displayName => row.displayName
  | .category => (row.category.getD "")
  | .location => (row.location.getD "")

/-- CSV escaping (dashboard.tsx lines 169-170): a field containing `"`, `,`
or a newline is wrapped in double quotes with inner quotes doubled. -/
def csvEscape (v : String) : String :=
  if v.data.any (fun c => c == '"' || c == ',' || c == '\n')
  then "\"" ++ ⟨v.data.flatMap (fun c => if c == '"' then ['"', '"'] else [c])⟩ ++ "\""
  else v

/-- `Array.prototype.join(sep)`. -/
def joinWith (sep : String) : List String → String
  | [] => ""
  | [s] => s
  | s :: rest => s ++ sep ++ joinWith sep rest

/-- The CSV text built by `exportCsv` (dashboard.tsx lines 164-175): header
row of column labels, then one row per record, comma-joined and
newline-joined. -/
def exportCsvText (rows : List InstagramMetrics) : String :=
  joinWith "\n"
    (joinWith "," (columns.map (fun c => c.label)) ::
      rows.map (fun row =>
        joinWith "," (columns.map (fun c => csvEscape (formatCellForExport row c)))))

/-- The component state the export closures read (dashboard.tsx lines 46-49). -/
structure DashboardState where
  rows : List InstagramMetrics
  sortKey : ColumnKey
  sortOrder : SortOrder

/-- `exportCsv` (dashboard.tsx lines 161-184): early-returns on an empty row
set, otherwise produces the CSV text from `rows` (the unsorted state — not
`sortedRows`).  The blob/anchor download side effects are outside the model. -/
def exportCsv (s : DashboardState) : Option String :=
  if s.rows.isEmpty then none else some (exportCsvText s.rows)

/-! ## Export Formatter — spreadsheet (dashboard.tsx lines 148-159, 186-194) -/

/-- A worksheet cell as handed to `XLSX.utils.json_to_sheet`: a raw number,
a string, or a null/undefined value. -/
inductive SheetCell
  | num (q : ℚ)
  | str (s : String)
  | null
deriving DecidableEq

/-- `formatSummary` (dashboard.tsx lines 148-159): the record-to-row mapping
of the Excel export, as an ordered label/value association list mirroring the
JS object literal.  Numeric fields are passed through raw (`?? ""` turns an
absent value into the empty string); no compact or fixed-point formatting is
applied. -/
def formatSummary (row : InstagramMetrics) : List (String × SheetCell) :=
  [ ("Name", .str row.displayName),
    ("Handle", .str ("@" ++ row.handle)),
    ("Followers", (row.followers.map (fun n => SheetCell.num (n : ℚ))).getD (.str "")),
    ("Avg. Views", (row.averageViews.map (fun n => SheetCell.num (n : ℚ))).getD (.str "")),
    ("Avg. Likes", (row.averageLikes.map (fun n => SheetCell.num (n : ℚ))).getD (.str "")),
    ("Engagement Rate (%)", (row.engagementRate.map SheetCell.num).getD (.str "")),
    ("Category", (row.category.map SheetCell.str).getD .null),
    ("Location", (row.location.map SheetCell.str).getD .null) ]

/-- The sheet rows built by `exportExcel` (dashboard.tsx line 190):
`rows.map((row) => formatSummary(row))`. -/
def exportExcelRows (rows : List InstagramMetrics) : List (List (String × SheetCell)) :=
  rows.map formatSummary

/-! ## Batch Aggregator — `POST` (route.ts lines 18-76)

The Metrics Resolver `fetchInstagramMetrics` is the external collaborator
(spec §6); a resolver is a function from a handle to a settled outcome.
`Promise.allSettled` settles every call, so an outcome is a fulfilled record
or a rejection with either a `SocialbladeError` or a generic error. -/

/-- One settled Resolver call. -/
inductive ResolveOutcome
  | fulfilled (m : InstagramMetrics)
  | rejectedSocialblade (message : String)
  | rejectedGeneric (message : String)

/-- A resolver: the external `fetchInstagramMetrics` collaborator. -/
def Resolver : Type := String → ResolveOutcome

/-- An element of the JSON `handles` array.  JSON cannot carry `undefined`,
but the route's `value ?? ""` guards for it, so the model includes it.
Numeric elements are modelled as integers (where `String(value)` is exact). -/
inductive JsValue
  | str (s : String)
  | num (i : Int)
  | bool (b : Bool)
  | null
  | undef
deriving DecidableEq

/-- ECMAScript `String(value ?? "")` (route.ts line 31). -/
def jsToString : JsValue → String
  | .str s => s
  | .num i => intRepr i
  | .bool b => if b then "true" else "false"
  | .null => ""
  | .undef => ""

/-- The trimmed non-empty tokens of the `handles` array (route.ts lines
30-32): `payload.handles.map((value) => String(value ?? "").trim())
.filter((value) => value.length > 0)`. -/
def tokensOf (handles : List JsValue) : List String :=
  (handles.map (fun v => jsTrim (jsToString v))).filter (fun s => s.length > 0)

/-- First-occurrence-order deduplication with a seen-accumulator, as
`Array.from(new Set(...))` (route.ts lines 28-34). -/
def dedupFirstAux : List String → List String → List String
  | [], _ => []
  | a :: rest, seen =>
      if a ∈ seen then dedupFirstAux rest seen
      else a :: dedupFirstAux rest (a :: seen)

/-- `Array.from(new Set(l))`: `l` without its later duplicates. -/
def dedupFirst (l : List String) : List String := dedupFirstAux l []

/-- `uniqueHandles` (route.ts lines 28-34). -/
def uniqueHandlesOf (handles : List JsValue) : List String :=
  dedupFirst (tokensOf handles)

/-- `FetchError`: a handle paired with a failure message. -/
structure FetchErr where
  handle : String
  message : String
deriving DecidableEq

/-- `AnalyzeResponse` (route.ts lines 13-16, 47-50). -/
structure AnalyzeResponse where
  data : List InstagramMetrics
  errors : List FetchErr
deriving DecidableEq

/-- The body of `results.forEach` (route.ts lines 52-73): a fulfilled call
appends its record to the data track; a rejected call appends a `FetchError`
carrying the originally dispatched handle, with `SocialbladeError` messages
used as-is and generic messages falling back when empty
(`reason.message || "An unexpected error occurred."`). -/
def settleStep (acc : AnalyzeResponse) (p : String × ResolveOutcome) : AnalyzeResponse :=
  match p.2 with
  | .fulfilled m => { acc with data := acc.data ++ [m] }
  | .rejectedSocialblade msg => { acc with errors := acc.errors ++ [⟨p.1, msg⟩] }
  | .rejectedGeneric msg =>
      { acc with errors :=
          acc.errors ++ [⟨p.1, if msg = "" then "An unexpected error occurred." else msg⟩] }

/-- Dispatch one resolver call per deduplicated handle and fold the settled
results into the two-track response (route.ts lines 43-73). -/
def settleAll (resolver : Resolver) (handles : List String) : AnalyzeResponse :=
  (handles.zip (handles.map resolver)).foldl settleStep ⟨[], []⟩

/-- The route's HTTP-level result: a 400 rejection with a message, or a 200
response with the two-track body. -/
inductive RouteResult
  | badRequest (message : String)
  | ok (data : List InstagramMetrics) (errors : List FetchErr)
deriving DecidableEq

/-- The `POST` handler (route.ts lines 18-76).  `none` stands for a payload
whose `handles` field is missing or not an array
(`!Array.isArray(payload.handles)`). -/
def POST (resolver : Resolver) (handles : Option (List JsValue)) : RouteResult :=
  match handles with
  | none => .badRequest "Provide at least one Instagram handle."
  | some hs =>
      if hs.isEmpty then .badRequest "Provide at least one Instagram handle."
      else
        if (uniqueHandlesOf hs).isEmpty
        then .badRequest "Provide at least one valid Instagram handle."
        else
          let response := settleAll resolver (uniqueHandlesOf hs)
          .ok response.data response.errors

/-- The handles the `POST` handler dispatches to the Resolver, following the
handler's control flow: none on either 400 path, the deduplicated list
otherwise (route.ts lines 43-45). -/
def dispatchedHandles (handles : Option (List JsValue)) : List String :=
  match handles with
  | none => []
  | some hs =>
      if hs.isEmpty then []
      else if (uniqueHandlesOf hs).isEmpty then []
      else uniqueHandlesOf hs

/-- The data-track contribution of one settled call. -/
def okOf (resolver : Resolver) (h : String) : Option InstagramMetrics :=
  match resolver h with
  | .fulfilled m => some m
  | _ => none

/-- The error-track contribution of one settled call. -/
def errOf (resolver : Resolver) (h : String) : Option FetchErr :=
  match resolver h with
  | .fulfilled _ => none
  | .rejectedSocialblade msg => some ⟨h, msg⟩
  | .rejectedGeneric msg =>
      some ⟨h, if msg = "" then "An unexpected error occurred." else msg⟩

/-! ## Properties of the deduplication step -/

theorem mem_dedupFirstAux {x : String} :
    ∀ {l seen : List String}, x ∈ dedupFirstAux l seen → x ∈ l ∧ x ∉ seen := by
  intro l
  induction l with
  | nil => intro seen h; simp [dedupFirstAux] at h
  | cons a rest ih =>
      intro seen h
      by_cases ha : a ∈ seen
      · simp only [dedupFirstAux, if_pos ha] at h
        rcases ih h with ⟨h₁, h₂⟩
        exact ⟨List.mem_cons_of_mem _ h₁, h₂⟩
      · simp only [dedupFirstAux, if_neg ha] at h
        rcases List.mem_cons.mp h with rfl | h
        · exact ⟨List.mem_cons_self _ _, ha⟩
        · rcases ih h with ⟨h₁, h₂⟩
          simp only [List.mem_cons, not_or] at h₂
          exact ⟨List.mem_cons_of_mem _ h₁, h₂.2⟩

theorem length_dedupFirstAux :
    ∀ (l seen : List String),
      (dedupFirstAux l seen).length = (l.toFinset \ seen.toFinset).card := by
  intro l
  induction l with
  | nil => intro seen; simp [dedupFirstAux]
  | cons a rest ih =>
      intro seen
      by_cases ha : a ∈ seen
      · rw [dedupFirstAux, if_pos ha, ih]
        congr 1
        rw [List.toFinset_cons,
          Finset.insert_sdiff_of_mem _ (List.mem_toFinset.mpr ha)]
      · rw [dedupFirstAux, if_neg ha, List.length_cons, ih]
        rw [List.toFinset_cons, List.toFinset_cons,
          Finset.insert_sdiff_of_not_mem _ (by simpa using ha),
          Finset.sdiff_insert]
        by_cases hm : a ∈ rest.toFinset \ seen.toFinset
        · rw [Finset.card_erase_add_one hm, Finset.card_insert_of_mem hm]
        · rw [Finset.erase_eq_of_not_mem hm, Finset.card_insert_of_not_mem hm]

theorem length_dedupFirst (l : List String) :
    (dedupFirst l).length = l.toFinset.card := by
  simpa using length_dedupFirstAux l []

theorem pairwise_dedupFirstAux :
    ∀ (l seen : List String),
      (dedupFirstAux l seen).Pairwise (fun a b => l.indexOf a < l.indexOf b) := by
  intro l
  induction l with
  | nil => intro seen; simp [dedupFirstAux]
  | cons a rest ih =>
      intro seen
      by_cases ha : a ∈ seen
      · rw [dedupFirstAux, if_pos ha]
        refine (ih seen).imp_of_mem ?_
        intro x y hx hy hlt
        have hxa : x ≠ a := by
          intro h
          exact (mem_dedupFirstAux hx).2 (h ▸ ha)
        have hya : y ≠ a := by
          intro h
          exact (mem_dedupFirstAux hy).2 (h ▸ ha)
        rw [List.indexOf_cons_ne _ (fun h => hxa h.symm),
          List.indexOf_cons_ne _ (fun h => hya h.symm)]
        omega
      · rw [dedupFirstAux, if_neg ha]
        refine List.Pairwise.cons ?_ ?_
        · intro y hy
          have hya : y ≠ a := by
            intro h
            exact (mem_dedupFirstAux hy).2 (by simp [h])
          rw [List.indexOf_cons_self, List.indexOf_cons_ne _ (fun h => hya h.symm)]
          omega
        · refine (ih (a :: seen)).imp_of_mem ?_
          intro x y hx hy hlt
          have hxa : x ≠ a := by
            intro h
            exact (mem_dedupFirstAux hx).2 (by simp [h])
          have hya : y ≠ a := by
            intro h
            exact (mem_dedupFirstAux hy).2 (by simp [h])
          rw [List.indexOf_cons_ne _ (fun h => hxa h.symm),
            List.indexOf_cons_ne _ (fun h => hya h.symm)]
          omega

theorem pairwise_dedupFirst (l : List String) :
    (dedupFirst l).Pairwise (fun a b => l.indexOf a < l.indexOf b) :=
  pairwise_dedupFirstAux l []

theorem dedupFirst_ne_nil {l : List String} (h : l ≠ []) : dedupFirst l ≠ [] := by
  rcases l with _ | ⟨a, rest⟩
  · exact absurd rfl h
  · simp [dedupFirst, dedupFirstAux]

/-! ## Properties of the settlement fold -/

theorem foldl_settleStep (resolver : Resolver) :
    ∀ (l : List String) (d : List InstagramMetrics) (e : List FetchErr),
      (l.map (fun h => (h, resolver h))).foldl settleStep ⟨d, e⟩ =
        ⟨d ++ l.filterMap (okOf resolver), e ++ l.filterMap (errOf resolver)⟩ := by
  intro l
  induction l with
  | nil => intro d e; simp
  | cons h t ih =>
      intro d e
      rcases hr : resolver h with m | msg | msg <;>
        simp [settleStep, hr, ih, okOf, errOf, List.filterMap_cons]

theorem settleAll_eq (resolver : Resolver) (handles : List String) :
    settleAll resolver handles =
      ⟨handles.filterMap (okOf resolver), handles.filterMap (errOf resolver)⟩ := by
  rw [settleAll, show handles.zip (handles.map resolver)
        = handles.map (fun h => (h, resolver h)) by
      simpa using List.zip_map' id resolver handles]
  simpa using foldl_settleStep resolver handles [] []

theorem length_filterMap_ok_add_err (resolver : Resolver) :
    ∀ l : List String,
      (l.filterMap (okOf resolver)).length + (l.filterMap (errOf resolver)).length
        = l.length := by
  intro l
  induction l with
  | nil => simp
  | cons h t ih =>
      rcases hr : resolver h with m | msg | msg <;>
        simp [okOf, errOf, hr, List.filterMap_cons] <;> omega

theorem POST_ok (resolver : Resolver) (hs : List JsValue)
    (h : uniqueHandlesOf hs ≠ []) :
    POST resolver (some hs) =
      .ok ((uniqueHandlesOf hs).filterMap (okOf resolver))
        ((uniqueHandlesOf hs).filterMap (errOf resolver)) := by
  have hhs : hs ≠ [] := by
    intro hnil
    exact h (by simp [hnil, uniqueHandlesOf, tokensOf, dedupFirst, dedupFirstAux])
  rw [POST]
  rw [if_neg (by simpa [List.isEmpty_iff] using hhs),
    if_neg (by simpa [List.isEmpty_iff] using h)]
  rw [settleAll_eq]

/-! ## Concrete fixtures used by witnesses and counterexamples -/

/-- The engagement rate 3.456 (%), as the reduced rational 432/125. -/
def nasaRate : ℚ := ⟨432, 125, by decide, by decide⟩

/-- The spec §8 example record: `handle:"nasa", followers:1000000,
engagementRate:3.456`. -/
def nasa : InstagramMetrics :=
  ⟨"NASA", "nasa", some 1000000, none, none, some nasaRate, some "Science", none⟩

/-- A resolver that succeeds on `"a"` and fails on everything else. -/
def demoResolver : Resolver :=
  fun h => if h = "a" then .fulfilled nasa else .rejectedSocialblade "Account not found"

/-- A resolver that always fails generically with an empty message. -/
def altResolver : Resolver := fun _ => .rejectedGeneric ""

/-- A settled outcome that is a failure carrying a usable message: a
provider (`SocialbladeError`) failure with a non-empty message, or any
generic failure (whose empty message the route replaces by its fallback).
Spec §6 promises provider errors carry a human-readable message. -/
def failsWithMessage : ResolveOutcome → Prop
  | .fulfilled _ => False
  | .rejectedSocialblade m => m ≠ ""
  | .rejectedGeneric _ => True

/-! ## Claims about the Batch Aggregator -/

/-- C1 — Partition invariant of the Batch Aggregator: when the deduplicated
handle list is non-empty, the response is HTTP 200 with the data track
holding exactly the fulfilled calls' records and the error track exactly
the rejected calls' per-handle errors, in dispatch order; the two track
sizes sum to the number of distinct trimmed non-empty input handles, and
each settled call contributes to exactly one track (never both, never
neither). -/
theorem c1_partition_invariant (resolver : Resolver) (hs : List JsValue)
    (h : uniqueHandlesOf hs ≠ []) :
    POST resolver (some hs) =
      .ok ((uniqueHandlesOf hs).filterMap (okOf resolver))
        ((uniqueHandlesOf hs).filterMap (errOf resolver))
    ∧ ((uniqueHandlesOf hs).filterMap (okOf resolver)).length
        + ((uniqueHandlesOf hs).filterMap (errOf resolver)).length
      = (tokensOf hs).toFinset.card
    ∧ (∀ x ∈ uniqueHandlesOf hs, ((okOf resolver x).isSome ↔ errOf resolver x = none)) := by
  refine ⟨POST_ok resolver hs h, ?_, ?_⟩
  · rw [length_filterMap_ok_add_err resolver]
    exact length_dedupFirst _
  · intro x _
    rcases hr : resolver x with m | m | m <;> simp [okOf, errOf, hr]

theorem c1_partition_invariant_witness :
    POST demoResolver (some [JsValue.str "a", JsValue.str "b", JsValue.str "a"]) =
      .ok ((uniqueHandlesOf [JsValue.str "a", JsValue.str "b", JsValue.str "a"]).filterMap (okOf demoResolver))
        ((uniqueHandlesOf [JsValue.str "a", JsValue.str "b", JsValue.str "a"]).filterMap (errOf demoResolver))
    ∧ ((uniqueHandlesOf [JsValue.str "a", JsValue.str "b", JsValue.str "a"]).filterMap (okOf demoResolver)).length
        + ((uniqueHandlesOf [JsValue.str "a", JsValue.str "b", JsValue.str "a"]).filterMap (errOf demoResolver)).length
      = (tokensOf [JsValue.str "a", JsValue.str "b", JsValue.str "a"]).toFinset.card
    ∧ (∀ x ∈ uniqueHandlesOf [JsValue.str "a", JsValue.str "b", JsValue.str "a"],
        ((okOf demoResolver x).isSome ↔ errOf demoResolver x = none)) :=
  c1_partition_invariant demoResolver [JsValue.str "a", JsValue.str "b", JsValue.str "a"]
    (by decide)

/-- C2 — Dedup invariant: the deduplicated list on which the Resolver is
invoked (one call per element) has as many elements as there are distinct
trimmed non-empty tokens in the input — so duplicates and their ordering
cannot change the call count — and it lists the tokens in strictly
increasing order of their first occurrence in the token list. -/
theorem c2_dedup_invariant (hs : List JsValue) :
    (uniqueHandlesOf hs).length = (tokensOf hs).toFinset.card
    ∧ (∀ resolver : Resolver,
        ((uniqueHandlesOf hs).map resolver).length = (tokensOf hs).toFinset.card)
    ∧ (uniqueHandlesOf hs).Pairwise
        (fun a b => (tokensOf hs).indexOf a < (tokensOf hs).indexOf b) :=
  ⟨length_dedupFirst _,
    fun _ => by rw [List.length_map]; exact length_dedupFirst _,
    pairwise_dedupFirst _⟩

/-- C4 (counterexample) — the error entry for the failed handle carries the
original trimmed token `"@doesnotexist123456"`, with the `@` still present:
it is not the claimed `"doesnotexist123456"`. -/
theorem c4_handle_retains_at_sign :
    POST (fun _ => .rejectedSocialblade "Account not found")
        (some [JsValue.str "@doesnotexist123456"]) =
      .ok [] [⟨"@doesnotexist123456", "Account not found"⟩]
    ∧ ("@doesnotexist123456" : String) ≠ "doesnotexist123456" := by
  constructor
  · decide
  · decide

/-- C4 (amended) — All-failing batch: when the single dispatched handle
`"@doesnotexist123456"` fails (with a non-empty provider message, or
generically), the response is HTTP 200 with an empty data track and exactly
one error entry, whose handle field is the original trimmed token
`"@doesnotexist123456"` and whose message is non-empty (falling back to the
generic message when the failure carries none). -/
theorem c4_all_failing_batch (resolver : Resolver)
    (h : failsWithMessage (resolver "@doesnotexist123456")) :
    ∃ msg, POST resolver (some [JsValue.str "@doesnotexist123456"]) =
        .ok [] [⟨"@doesnotexist123456", msg⟩] ∧ msg ≠ "" := by
  have hu : uniqueHandlesOf [JsValue.str "@doesnotexist123456"]
      = ["@doesnotexist123456"] := by decide
  have hpost := POST_ok resolver [JsValue.str "@doesnotexist123456"]
    (by rw [hu]; simp)
  rw [hu] at hpost
  rcases hr : resolver "@doesnotexist123456" with m | m | m
  · rw [hr] at h
    exact absurd h (by simp [failsWithMessage])
  · refine ⟨m, ?_, ?_⟩
    · rw [hpost]
      simp [okOf, errOf, hr]
    · rw [hr] at h
      exact h
  · refine ⟨if m = "" then "An unexpected error occurred." else m, ?_, ?_⟩
    · rw [hpost]
      simp [okOf, errOf, hr]
    · by_cases hm : m = ""
      · rw [if_pos hm]
        decide
      · rw [if_neg hm]
        exact hm

theorem c4_all_failing_batch_witness :
    ∃ msg, POST altResolver (some [JsValue.str "@doesnotexist123456"]) =
        .ok [] [⟨"@doesnotexist123456", msg⟩] ∧ msg ≠ "" :=
  c4_all_failing_batch altResolver (by trivial)

/-- C5 — Empty-input rejection: a missing / non-array `handles` field, an
empty array, or an array with zero valid tokens after trim and dedupe is
answered with HTTP 400 and a non-empty message, with zero Resolver calls
dispatched (the outcome does not depend on the resolver at all). -/
theorem c5_empty_input_rejection (resolver altR : Resolver)
    (handles : Option (List JsValue))
    (h : handles = none ∨ handles = some [] ∨
      ∃ hs, handles = some hs ∧ uniqueHandlesOf hs = []) :
    ∃ msg, POST resolver handles = .badRequest msg ∧ msg ≠ ""
      ∧ dispatchedHandles handles = []
      ∧ POST resolver handles = POST altR handles := by
  rcases h with rfl | rfl | ⟨hs, rfl, hu⟩
  · exact ⟨"Provide at least one Instagram handle.", rfl, by decide, rfl, rfl⟩
  · exact ⟨"Provide at least one Instagram handle.", rfl, by decide, rfl, rfl⟩
  · by_cases hh : hs.isEmpty
    · refine ⟨"Provide at least one Instagram handle.", ?_, by decide, ?_, ?_⟩ <;>
        simp [POST, dispatchedHandles, hh]
    · refine ⟨"Provide at least one valid Instagram handle.", ?_, by decide, ?_, ?_⟩ <;>
        simp [POST, dispatchedHandles, hh, hu]

theorem c5_empty_input_rejection_witness :
    ∃ msg, POST demoResolver (some [JsValue.str " "]) = .badRequest msg ∧ msg ≠ ""
      ∧ dispatchedHandles (some [JsValue.str " "]) = []
      ∧ POST demoResolver (some [JsValue.str " "]) = POST altResolver (some [JsValue.str " "]) :=
  c5_empty_input_rejection demoResolver altResolver (some [JsValue.str " "])
    (Or.inr (Or.inr ⟨[JsValue.str " "], rfl, by decide⟩))

/-- C10 — Non-string coercion at the HTTP boundary: non-string array
elements are not rejected as a type error (the batch still answers HTTP 200
when a non-empty token remains); `null` and `undefined` elements coerce to
the empty string and are silently discarded, while a number such as `42`
coerces to its string form `"42"`, is trimmed, and joins the token list
like an ordinary handle. -/
theorem c10_non_string_coercion (resolver : Resolver) (hs : List JsValue)
    (h : tokensOf hs ≠ []) :
    (∃ data errors, POST resolver (some hs) = .ok data errors)
    ∧ tokensOf (JsValue.null :: hs) = tokensOf hs
    ∧ tokensOf (JsValue.undef :: hs) = tokensOf hs
    ∧ tokensOf (JsValue.num 42 :: hs) = "42" :: tokensOf hs := by
  refine ⟨?_, ?_, ?_, ?_⟩
  · have hu : uniqueHandlesOf hs ≠ [] := by
      rcases ht : tokensOf hs with _ | ⟨a, l⟩
      · exact absurd ht h
      · unfold uniqueHandlesOf
        rw [ht]
        exact dedupFirst_ne_nil (by simp)
    exact ⟨_, _, POST_ok resolver hs hu⟩
  · unfold tokensOf
    rw [List.map_cons, List.filter_cons]
    simp [jsToString, show jsTrim "" = "" from rfl]
  · unfold tokensOf
    rw [List.map_cons, List.filter_cons]
    simp [jsToString, show jsTrim "" = "" from rfl]
  · unfold tokensOf
    rw [List.map_cons, List.filter_cons]
    simp only [jsToString, show jsTrim (intRepr 42) = "42" by decide]
    rw [if_pos (by decide)]

theorem c10_non_string_coercion_witness :
    (∃ data errors, POST demoResolver (some [JsValue.str "a"]) = .ok data errors)
    ∧ tokensOf (JsValue.null :: [JsValue.str "a"]) = tokensOf [JsValue.str "a"]
    ∧ tokensOf (JsValue.undef :: [JsValue.str "a"]) = tokensOf [JsValue.str "a"]
    ∧ tokensOf (JsValue.num 42 :: [JsValue.str "a"]) = "42" :: tokensOf [JsValue.str "a"] :=
  c10_non_string_coercion demoResolver [JsValue.str "a"] (by decide)

/-! ## Order-theoretic facts about the comparator -/

theorem char_eq_of_not_lt {x y : Char} (h₁ : ¬ x < y) (h₂ : ¬ y < x) : x = y :=
  le_antisymm (not_lt.mp h₂) (not_lt.mp h₁)

theorem lexCompareChars_cons_nonpos {x y : Char} {xs ys : List Char} :
    lexCompareChars (x :: xs) (y :: ys) ≤ 0 ↔
      x < y ∨ (x = y ∧ lexCompareChars xs ys ≤ 0) := by
  by_cases h₁ : x < y
  · simp [lexCompareChars, h₁]
  · by_cases h₂ : y < x
    · have : x ≠ y := fun h => absurd (h ▸ h₂) (lt_irrefl x)
      simp [lexCompareChars, h₁, h₂, this]
    · have he : x = y := char_eq_of_not_lt h₁ h₂
      simp [lexCompareChars, h₁, h₂, he]

theorem lexCompareChars_total :
    ∀ a b : List Char, lexCompareChars a b ≤ 0 ∨ lexCompareChars b a ≤ 0 := by
  intro a
  induction a with
  | nil => intro b; cases b <;> simp [lexCompareChars]
  | cons x xs ih =>
      intro b
      cases b with
      | nil => right; simp [lexCompareChars]
      | cons y ys =>
          by_cases h₁ : x < y
          · left
            exact lexCompareChars_cons_nonpos.mpr (Or.inl h₁)
          · by_cases h₂ : y < x
            · right
              exact lexCompareChars_cons_nonpos.mpr (Or.inl h₂)
            · have he : x = y := char_eq_of_not_lt h₁ h₂
              rcases ih ys with h | h
              · left
                exact lexCompareChars_cons_nonpos.mpr (Or.inr ⟨he, h⟩)
              · right
                exact lexCompareChars_cons_nonpos.mpr (Or.inr ⟨he.symm, h⟩)

theorem lexCompareChars_trans :
    ∀ a b c : List Char, lexCompareChars a b ≤ 0 → lexCompareChars b c ≤ 0 →
      lexCompareChars a c ≤ 0 := by
  intro a
  induction a with
  | nil => intro b c _ _; cases c <;> simp [lexCompareChars]
  | cons x xs ih =>
      intro b c h₁ h₂
      cases b with
      | nil => simp [lexCompareChars] at h₁
      | cons y ys =>
          cases c with
          | nil => simp [lexCompareChars] at h₂
          | cons z zs =>
              rcases lexCompareChars_cons_nonpos.mp h₁ with hxy | ⟨rfl, hrec₁⟩ <;>
                rcases lexCompareChars_cons_nonpos.mp h₂ with hyz | ⟨he₂, hrec₂⟩
              · exact lexCompareChars_cons_nonpos.mpr (Or.inl (hxy.trans hyz))
              · exact lexCompareChars_cons_nonpos.mpr (Or.inl (he₂ ▸ hxy))
              · exact lexCompareChars_cons_nonpos.mpr (Or.inl hyz)
              · exact lexCompareChars_cons_nonpos.mpr
                  (Or.inr ⟨he₂, ih ys zs hrec₁ hrec₂⟩)

theorem lexCompareChars_antisymm :
    ∀ a b : List Char, lexCompareChars a b ≤ 0 → lexCompareChars b a ≤ 0 → a = b := by
  intro a
  induction a with
  | nil => intro b h₁ _; cases b with
      | nil => rfl
      | cons y ys => simp [lexCompareChars] at *
  | cons x xs ih =>
      intro b h₁ h₂
      cases b with
      | nil => simp [lexCompareChars] at h₁
      | cons y ys =>
          rcases lexCompareChars_cons_nonpos.mp h₁ with hxy | ⟨rfl, hrec₁⟩
          · rcases lexCompareChars_cons_nonpos.mp h₂ with hyx | ⟨he, _⟩
            · exact absurd (hxy.trans hyx) (lt_irrefl x)
            · exact absurd (he ▸ hxy) (lt_irrefl y)
          · rcases lexCompareChars_cons_nonpos.mp h₂ with hyx | ⟨_, hrec₂⟩
            · exact absurd hyx (lt_irrefl x)
            · rw [ih ys hrec₁ hrec₂]

theorem string_eq_of_data {a b : String} (h : a.data = b.data) : a = b := by
  cases a
  cases b
  exact congrArg String.mk h

/-- For every fixed column the present values are uniformly numbers or
uniformly strings (this is why the comparator's mixed-type `String(...)`
branch is unreachable). -/
theorem extract_shape (k : ColumnKey) :
    (∀ r, extractSortValue r k = none ∨ ∃ q, extractSortValue r k = some (.num q)) ∨
    (∀ r, extractSortValue r k = none ∨ ∃ s, extractSortValue r k = some (.str s)) := by
  cases k
  case displayName => exact Or.inr (fun r => Or.inr ⟨r.displayName, rfl⟩)
  case handle => exact Or.inr (fun r => Or.inr ⟨r.handle, rfl⟩)
  case followers =>
      refine Or.inl (fun r => ?_)
      rcases hf : r.followers with _ | n
      · exact Or.inl (by simp [extractSortValue, hf])
      · exact Or.inr ⟨n, by simp [extractSortValue, hf]⟩
  case averageViews =>
      refine Or.inl (fun r => ?_)
      rcases hf : r.averageViews with _ | n
      · exact Or.inl (by simp [extractSortValue, hf])
      · exact Or.inr ⟨n, by simp [extractSortValue, hf]⟩
  case engagementRate =>
      refine Or.inl (fun r => ?_)
      rcases hf : r.engagementRate with _ | q
      · exact Or.inl (by simp [extractSortValue, hf])
      · exact Or.inr ⟨q, by simp [extractSortValue, hf]⟩
  case category =>
      refine Or.inr (fun r => ?_)
      rcases hf : r.category with _ | s
      · exact Or.inl (by simp [extractSortValue, hf])
      · exact Or.inr ⟨s, by simp [extractSortValue, hf]⟩
  case location =>
      refine Or.inr (fun r => ?_)
      rcases hf : r.location with _ | s
      · exact Or.inl (by simp [extractSortValue, hf])
      · exact Or.inr ⟨s, by simp [extractSortValue, hf]⟩
  case averageLikes =>
      refine Or.inl (fun r => ?_)
      rcases hf : r.averageLikes with _ | n
      · exact Or.inl (by simp [extractSortValue, hf])
      · exact Or.inr ⟨n, by simp [extractSortValue, hf]⟩

/-- Swapping the arguments and the direction leaves the comparator value
unchanged: `comparator(desc)(b, a) = comparator(asc)(a, b)`. -/
theorem compareRows_desc_swap (k : ColumnKey) (a b : InstagramMetrics) :
    compareRows .desc k b a = compareRows .asc k a b := by
  rcases h₁ : extractSortValue a k with _ | v₁ <;>
    rcases h₂ : extractSortValue b k with _ | v₂
  · simp [compareRows, h₁, h₂]
  · rcases v₂ with q | s <;> simp [compareRows, h₁, h₂]
  · rcases v₁ with q | s <;> simp [compareRows, h₁, h₂]
  · rcases v₁ with q₁ | s₁ <;> rcases v₂ with q₂ | s₂ <;>
      simp [compareRows, h₁, h₂]

theorem leRows_trans (o : SortOrder) (k : ColumnKey) :
    ∀ a b c, leRows o k a b → leRows o k b c → leRows o k a c := by
  intro a b c h₁ h₂
  unfold leRows at h₁ h₂ ⊢
  rcases extract_shape k with hk | hk
  · rcases hk a with ha | ⟨qa, ha⟩ <;> rcases hk b with hb | ⟨qb, hb⟩ <;>
      rcases hk c with hc | ⟨qc, hc⟩ <;> rcases o <;>
      simp_all [compareRows] <;> linarith
  · rcases hk a with ha | ⟨sa, ha⟩ <;> rcases hk b with hb | ⟨sb, hb⟩ <;>
      rcases hk c with hc | ⟨sc, hc⟩ <;> rcases o <;>
      simp_all [compareRows, SortValue.toJsString, localeCompare, Int.cast_nonpos] <;>
      first
        | exact lexCompareChars_trans _ _ _ h₁ h₂
        | exact lexCompareChars_trans _ _ _ h₂ h₁
        | linarith

theorem leRows_total (o : SortOrder) (k : ColumnKey) :
    ∀ a b, leRows o k a b ∨ leRows o k b a := by
  intro a b
  unfold leRows
  rcases extract_shape k with hk | hk
  · rcases hk a with ha | ⟨qa, ha⟩ <;> rcases hk b with hb | ⟨qb, hb⟩ <;> rcases o <;>
      simp_all [compareRows, sub_nonpos] <;>
      exact le_total _ _
  · rcases hk a with ha | ⟨sa, ha⟩ <;> rcases hk b with hb | ⟨sb, hb⟩ <;> rcases o <;>
      simp_all [compareRows, SortValue.toJsString, localeCompare, Int.cast_nonpos] <;>
      exact lexCompareChars_total _ _

theorem leRows_antisymm_of_present (o : SortOrder) (k : ColumnKey)
    (a b : InstagramMetrics)
    (ha : extractSortValue a k ≠ none) (hb : extractSortValue b k ≠ none)
    (h₁ : leRows o k a b) (h₂ : leRows o k b a) :
    extractSortValue a k = extractSortValue b k := by
  unfold leRows at h₁ h₂
  rcases extract_shape k with hk | hk
  · rcases hk a with ha₀ | ⟨qa, ha₀⟩
    · exact absurd ha₀ ha
    rcases hk b with hb₀ | ⟨qb, hb₀⟩
    · exact absurd hb₀ hb
    rw [ha₀, hb₀]
    rcases o <;> simp_all [compareRows, sub_nonpos] <;>
      first
        | exact le_antisymm h₁ h₂
        | exact le_antisymm h₂ h₁
  · rcases hk a with ha₀ | ⟨sa, ha₀⟩
    · exact absurd ha₀ ha
    rcases hk b with hb₀ | ⟨sb, hb₀⟩
    · exact absurd hb₀ hb
    rw [ha₀, hb₀]
    rcases o <;>
      simp_all [compareRows, SortValue.toJsString, localeCompare, Int.cast_nonpos] <;>
      first
        | exact string_eq_of_data (lexCompareChars_antisymm _ _ h₁ h₂)
        | exact string_eq_of_data (lexCompareChars_antisymm _ _ h₂ h₁)

/-- A list is determined by its multiset of elements and a sorting relation
that is antisymmetric on those elements. -/
theorem sorted_perm_eq {α : Type} (r : α → α → Prop) :
    ∀ l₁ l₂ : List α, l₁.Perm l₂ →
      (∀ a ∈ l₁, ∀ b ∈ l₁, r a b → r b a → a = b) →
      l₁.Pairwise r → l₂.Pairwise r → l₁ = l₂ := by
  intro l₁
  induction l₁ with
  | nil => intro l₂ hp _ _ _; exact (hp.symm.eq_nil).symm
  | cons a t₁ ih =>
      intro l₂ hp hanti hp₁ hp₂
      cases l₂ with
      | nil => exact absurd hp.eq_nil (by simp)
      | cons b t₂ =>
          have hab : a = b := by
            by_cases h : a = b
            · exact h
            · have hbmem : b ∈ a :: t₁ := hp.symm.mem_iff.mp (List.mem_cons_self b t₂)
              have hamem : a ∈ b :: t₂ := hp.mem_iff.mp (List.mem_cons_self a t₁)
              have hbt₁ : b ∈ t₁ := by
                rcases List.mem_cons.mp hbmem with h' | h'
                · exact absurd h'.symm h
                · exact h'
              have hat₂ : a ∈ t₂ := by
                rcases List.mem_cons.mp hamem with h' | h'
                · exact absurd h' h
                · exact h'
              have hrab : r a b := (List.pairwise_cons.mp hp₁).1 b hbt₁
              have hrba : r b a := (List.pairwise_cons.mp hp₂).1 a hat₂
              exact hanti a (List.mem_cons_self a t₁) b hbmem hrab hrba
          subst hab
          have ht : t₁.Perm t₂ := hp.cons_inv
          have : t₁ = t₂ := by
            refine ih t₂ ht ?_ (List.pairwise_cons.mp hp₁).2 (List.pairwise_cons.mp hp₂).2
            intro x hx y hy
            exact hanti x (List.mem_cons_of_mem _ hx) y (List.mem_cons_of_mem _ hy)
          rw [this]

/-! ## Claims about the Sort Engine -/

/-- A record with every metric absent. -/
def rowAbsent : InstagramMetrics := ⟨"Zed", "zed", none, none, none, none, none, none⟩

/-- A record with 5 followers. -/
def rowEqA : InstagramMetrics := ⟨"A", "a", some 5, none, none, none, none, none⟩

/-- A second, distinct record that also has 5 followers. -/
def rowEqB : InstagramMetrics := ⟨"B", "b", some 5, none, none, none, none, none⟩

/-- A record with 7 followers. -/
def rowSeven : InstagramMetrics := ⟨"C", "c", some 7, none, none, none, none, none⟩

/-- C6 — Absent-value placement: comparing an absent-valued record against a
present-valued one yields a positive comparator value ascending (the absent
record sorts after) and a negative one descending (it sorts before); two
absent-valued records compare as equal; consequently, in the sorted
sequence no absent-valued record precedes a present-valued one ascending,
and none follows one descending. -/
theorem c6_absent_value_placement (k : ColumnKey) (o : SortOrder)
    (a b : InstagramMetrics) (rows : List InstagramMetrics) :
    (extractSortValue a k = none → extractSortValue b k ≠ none →
      0 < compareRows .asc k a b ∧ compareRows .desc k a b < 0)
    ∧ (extractSortValue a k = none → extractSortValue b k = none →
      compareRows o k a b = 0)
    ∧ (sortedRows rows k .asc).Pairwise
        (fun x y => extractSortValue x k = none → extractSortValue y k = none)
    ∧ (sortedRows rows k .desc).Pairwise
        (fun x y => extractSortValue y k = none → extractSortValue x k = none) := by
  haveI : IsTotal InstagramMetrics (leRows .asc k) := ⟨leRows_total .asc k⟩
  haveI : IsTrans InstagramMetrics (leRows .asc k) := ⟨leRows_trans .asc k⟩
  haveI : IsTotal InstagramMetrics (leRows .desc k) := ⟨leRows_total .desc k⟩
  haveI : IsTrans InstagramMetrics (leRows .desc k) := ⟨leRows_trans .desc k⟩
  refine ⟨?_, ?_, ?_, ?_⟩
  · intro ha hb
    rcases hv : extractSortValue b k with _ | v
    · exact absurd hv hb
    · constructor <;> simp [compareRows, ha, hv]
  · intro ha hb
    simp [compareRows, ha, hb]
  · have hs : (sortedRows rows k .asc).Pairwise (leRows .asc k) :=
      List.sorted_insertionSort (leRows .asc k) rows
    refine hs.imp ?_
    intro x y hxy hx
    rcases hv : extractSortValue y k with _ | v
    · rfl
    · rw [leRows, compareRows] at hxy
      rw [hx, hv] at hxy
      simp only [if_pos rfl] at hxy
      exact absurd hxy (by norm_num)
  · have hs : (sortedRows rows k .desc).Pairwise (leRows .desc k) :=
      List.sorted_insertionSort (leRows .desc k) rows
    refine hs.imp ?_
    intro x y hxy hy
    rcases hv : extractSortValue x k with _ | v
    · rfl
    · rw [leRows, compareRows] at hxy
      rw [hy, hv] at hxy
      simp only [reduceCtorEq, if_neg] at hxy
      exact absurd hxy (by norm_num)

theorem c6_absent_value_placement_witness :
    (0 < compareRows .asc .followers rowAbsent nasa
      ∧ compareRows .desc .followers rowAbsent nasa < 0)
    ∧ compareRows .asc .followers rowAbsent rowAbsent = 0
    ∧ (sortedRows [rowAbsent, nasa] .followers .asc).Pairwise
        (fun x y => extractSortValue x .followers = none → extractSortValue y .followers = none)
    ∧ (sortedRows [rowAbsent, nasa] .followers .desc).Pairwise
        (fun x y => extractSortValue y .followers = none → extractSortValue x .followers = none) :=
  ⟨(c6_absent_value_placement .followers .asc rowAbsent nasa [rowAbsent, nasa]).1
      rfl (by decide),
    (c6_absent_value_placement .followers .asc rowAbsent rowAbsent []).2.1 rfl rfl,
    (c6_absent_value_placement .followers .asc rowAbsent nasa [rowAbsent, nasa]).2.2.1,
    (c6_absent_value_placement .followers .asc rowAbsent nasa [rowAbsent, nasa]).2.2.2⟩

/-- C9 (counterexample) — with two distinct records sharing the same present
follower count, sorting ascending and reversing does not equal sorting
descending: the stable sort leaves both orders as the original, so the
reversed one differs.  Both records have a present value for the column, so
this falsifies the claim as stated. -/
theorem c9_stable_tie_counterexample :
    extractSortValue rowEqA .followers ≠ none
    ∧ extractSortValue rowEqB .followers ≠ none
    ∧ (sortedRows [rowEqA, rowEqB] .followers .asc).reverse
        ≠ sortedRows [rowEqA, rowEqB] .followers .desc := by
  refine ⟨by decide, by decide, by decide⟩

/-- C9 (amended) — Sort directional symmetry: for every record list and
column under which every record has a present value and no two records
share the same value, sorting ascending and reversing the result equals
sorting descending. -/
theorem c9_directional_symmetry (rows : List InstagramMetrics) (k : ColumnKey)
    (hpres : ∀ r ∈ rows, extractSortValue r k ≠ none)
    (hinj : (rows.map (fun r => extractSortValue r k)).Nodup) :
    (sortedRows rows k .asc).reverse = sortedRows rows k .desc := by
  haveI : IsTotal InstagramMetrics (leRows .asc k) := ⟨leRows_total .asc k⟩
  haveI : IsTrans InstagramMetrics (leRows .asc k) := ⟨leRows_trans .asc k⟩
  haveI : IsTotal InstagramMetrics (leRows .desc k) := ⟨leRows_total .desc k⟩
  haveI : IsTrans InstagramMetrics (leRows .desc k) := ⟨leRows_trans .desc k⟩
  have pasc : (sortedRows rows k .asc).Perm rows :=
    List.perm_insertionSort (leRows .asc k) rows
  have pdesc : (sortedRows rows k .desc).Perm rows :=
    List.perm_insertionSort (leRows .desc k) rows
  have prev : ((sortedRows rows k .asc).reverse).Perm rows :=
    (List.reverse_perm _).trans pasc
  have hd : (sortedRows rows k .desc).Pairwise (leRows .desc k) :=
    List.sorted_insertionSort (leRows .desc k) rows
  have ha : (sortedRows rows k .asc).Pairwise (leRows .asc k) :=
    List.sorted_insertionSort (leRows .asc k) rows
  have hrev : ((sortedRows rows k .asc).reverse).Pairwise (leRows .desc k) := by
    rw [List.pairwise_reverse]
    refine ha.imp ?_
    intro x y hxy
    show leRows .desc k y x
    rw [leRows, compareRows_desc_swap]
    exact hxy
  refine sorted_perm_eq (leRows .desc k) _ _ (prev.trans pdesc.symm) ?_ hrev hd
  intro x hx y hy hxy hyx
  have hxr : x ∈ rows := prev.mem_iff.mp hx
  have hyr : y ∈ rows := prev.mem_iff.mp hy
  have hvals := leRows_antisymm_of_present .desc k x y
    (hpres x hxr) (hpres y hyr) hxy hyx
  exact List.inj_on_of_nodup_map hinj hxr hyr hvals

theorem c9_directional_symmetry_witness :
    (sortedRows [rowEqA, rowSeven] .followers .asc).reverse
      = sortedRows [rowEqA, rowSeven] .followers .desc :=
  c9_directional_symmetry [rowEqA, rowSeven] .followers (by decide) (by decide)

/-! ## Digit-level facts about the number formatters -/

theorem digitsOfAux_congr :
    ∀ f₁ f₂ m : Nat, m < f₁ → m < f₂ → digitsOfAux f₁ m = digitsOfAux f₂ m := by
  intro f₁
  induction f₁ with
  | zero => intro f₂ m h₁ _; omega
  | succ a ih =>
      intro f₂ m h₁ h₂
      cases f₂ with
      | zero => omega
      | succ b =>
          by_cases hm : m < 10
          · simp [digitsOfAux, hm]
          · have hlt : m / 10 < m := Nat.div_lt_self (by omega) (by omega)
            simp only [digitsOfAux, if_neg hm]
            rw [ih b (m / 10) (by omega) (by omega)]

theorem digitsOf_eq (n : Nat) :
    digitsOf n = if n < 10 then (⟨[digitChar n]⟩ : String)
      else digitsOf (n / 10) ++ ⟨[digitChar (n % 10)]⟩ := by
  by_cases h : n < 10
  · simp [digitsOf, digitsOfAux, h]
  · have hlt : n / 10 < n := Nat.div_lt_self (by omega) (by omega)
    simp only [digitsOf, digitsOfAux, if_neg h]
    rw [digitsOfAux_congr n (n / 10 + 1) (n / 10) (by omega) (by omega)]
    rfl

theorem standardNumberFormatAux_congr :
    ∀ f₁ f₂ m : Nat, m < f₁ → m < f₂ →
      standardNumberFormatAux f₁ m = standardNumberFormatAux f₂ m := by
  intro f₁
  induction f₁ with
  | zero => intro f₂ m h₁ _; omega
  | succ a ih =>
      intro f₂ m h₁ h₂
      cases f₂ with
      | zero => omega
      | succ b =>
          by_cases hm : m < 1000
          · simp [standardNumberFormatAux, hm]
          · have hlt : m / 1000 < m := Nat.div_lt_self (by omega) (by omega)
            simp only [standardNumberFormatAux, if_neg hm]
            rw [ih b (m / 1000) (by omega) (by omega)]

theorem standardNumberFormat_eq (n : Nat) :
    standardNumberFormat n = if n < 1000 then digitsOf n
      else standardNumberFormat (n / 1000) ++ "," ++ pad3 (n % 1000) := by
  by_cases h : n < 1000
  · simp [standardNumberFormat, standardNumberFormatAux, h]
  · have hlt : n / 1000 < n := Nat.div_lt_self (by omega) (by omega)
    simp only [standardNumberFormat, standardNumberFormatAux, if_neg h]
    rw [standardNumberFormatAux_congr n (n / 1000 + 1) (n / 1000) (by omega) (by omega)]
    rfl

theorem digitChar_ne_comma (d : Nat) : digitChar d ≠ ',' := by
  unfold digitChar
  split <;> decide

theorem digitChar_ne_dot (d : Nat) : digitChar d ≠ '.' := by
  unfold digitChar
  split <;> decide

theorem digitChar_congr {x y : Nat} (h : x % 10 = y % 10) :
    digitChar x = digitChar y := by
  unfold digitChar
  rw [h]

theorem not_mem_digitsOfAux {c : Char} (hc : ∀ d, digitChar d ≠ c) :
    ∀ f m, c ∉ (digitsOfAux f m).data := by
  intro f
  induction f with
  | zero => intro m; simp [digitsOfAux]
  | succ a ih =>
      intro m
      by_cases hm : m < 10
      · simp only [digitsOfAux, if_pos hm]
        intro hmem
        exact hc m (List.mem_singleton.mp hmem).symm
      · simp only [digitsOfAux, if_neg hm, String.data_append]
        intro hmem
        rcases List.mem_append.mp hmem with h | h
        · exact ih (m / 10) h
        · exact hc (m % 10) (List.mem_singleton.mp h).symm

theorem not_mem_digitsOf {c : Char} (hc : ∀ d, digitChar d ≠ c) (n : Nat) :
    c ∉ (digitsOf n).data :=
  not_mem_digitsOfAux hc (n + 1) n

theorem not_mem_pad3 {c : Char} (hc : ∀ d, digitChar d ≠ c) (b : Nat) :
    c ∉ (pad3 b).data := by
  intro hmem
  have : c = digitChar (b / 100) ∨ c = digitChar (b / 10) ∨ c = digitChar b := by
    simpa [pad3] using hmem
  rcases this with h | h | h <;> exact hc _ h.symm

theorem digitsOf_thousands (n : Nat) (h : 1000 ≤ n) :
    (digitsOf n).data = (digitsOf (n / 1000)).data ++ (pad3 (n % 1000)).data := by
  have h10 : 100 ≤ n / 10 := (Nat.le_div_iff_mul_le (by omega)).mpr (by omega)
  have h100 : 10 ≤ n / 100 := (Nat.le_div_iff_mul_le (by omega)).mpr (by omega)
  rw [digitsOf_eq n, if_neg (by omega)]
  rw [digitsOf_eq (n / 10), if_neg (by omega)]
  rw [Nat.div_div_eq_div_mul, show (10 * 10 : Nat) = 100 from rfl]
  rw [digitsOf_eq (n / 100), if_neg (by omega)]
  rw [Nat.div_div_eq_div_mul, show (100 * 10 : Nat) = 1000 from rfl]
  simp only [String.data_append, List.append_assoc]
  congr 1
  have e₁ : digitChar (n / 100 % 10) = digitChar (n % 1000 / 100) :=
    digitChar_congr (by omega)
  have e₂ : digitChar (n / 10 % 10) = digitChar (n % 1000 / 10) :=
    digitChar_congr (by omega)
  have e₃ : digitChar (n % 10) = digitChar (n % 1000) :=
    digitChar_congr (by omega)
  simp [pad3, e₁, e₂, e₃]

/-- Removing every `","` from a string (used to state that the grouped
rendering carries exactly the plain decimal digits). -/
def stripCommas (s : String) : String := ⟨s.data.filter (fun c => !(c == ','))⟩

theorem strip_commas_standardNumberFormat (n : Nat) :
    stripCommas (standardNumberFormat n) = digitsOf n := by
  refine string_eq_of_data ?_
  show (standardNumberFormat n).data.filter (fun c => !(c == ',')) = (digitsOf n).data
  induction n using Nat.strong_induction_on with
  | _ n ih =>
      by_cases h : n < 1000
      · rw [standardNumberFormat_eq, if_pos h]
        refine List.filter_eq_self.mpr ?_
        intro c hc
        have : c ≠ ',' := by
          intro hceq
          exact not_mem_digitsOf digitChar_ne_comma n (hceq ▸ hc)
        simpa using this
      · rw [standardNumberFormat_eq, if_neg h]
        simp only [String.data_append, List.filter_append]
        rw [ih (n / 1000) (Nat.div_lt_self (by omega) (by omega))]
        have hcomma : (",".data.filter (fun c => !(c == ','))) = [] := rfl
        have hpad : ((pad3 (n % 1000)).data.filter (fun c => !(c == ','))) =
            (pad3 (n % 1000)).data := by
          refine List.filter_eq_self.mpr ?_
          intro c hc
          have : c ≠ ',' := by
            intro hceq
            exact not_mem_pad3 digitChar_ne_comma (n % 1000) (hceq ▸ hc)
          simpa using this
        rw [hcomma, hpad, List.append_nil]
        exact (digitsOf_thousands n (by omega)).symm

theorem dot_not_mem_standardNumberFormat (n : Nat) :
    '.' ∉ (standardNumberFormat n).data := by
  induction n using Nat.strong_induction_on with
  | _ n ih =>
      by_cases h : n < 1000
      · rw [standardNumberFormat_eq, if_pos h]
        exact not_mem_digitsOf digitChar_ne_dot n
      · rw [standardNumberFormat_eq, if_neg h]
        simp only [String.data_append]
        intro hmem
        rcases List.mem_append.mp hmem with hm | hm
        · rcases List.mem_append.mp hm with hm' | hm'
          · exact ih (n / 1000) (Nat.div_lt_self (by omega) (by omega)) hm'
          · simp at hm'
        · exact not_mem_pad3 digitChar_ne_dot (n % 1000) hm

/-! ## Claims about the Export Formatter -/

/-- A record with all numeric metrics present (1000000 followers, 2000
average views, 150 average likes, 3.456 % engagement). -/
def nasaFull : InstagramMetrics :=
  ⟨"NASA", "nasa", some 1000000, some 2000, some 150, some nasaRate, none, none⟩

/-- C3 (counterexample) — the text export renders 1000000 followers as the
en-US grouped field `"1,000,000"`, not as the plain integer `"1000000"`
claimed (the `Intl.NumberFormat` used groups by default). -/
theorem c3_grouping_counterexample :
    formatCellForExport nasa ⟨.followers, "Followers", true⟩ = "1,000,000"
    ∧ ("1,000,000" : String) ≠ "1000000"
    ∧ csvEscape "1,000,000" = "\"1,000,000\"" := by
  refine ⟨by decide, by decide, by decide⟩

/-- C3 (amended) — CSV export numeric formatting: the followers,
averageViews and averageLikes fields are rendered via the en-US grouped
integer formatter (stripping the grouping commas recovers exactly the plain
decimal digits, and no decimal point ever appears), and the engagementRate
field is rendered as a fixed-point value with exactly two fractional
digits. -/
theorem c3_export_numeric_fields (r : InstagramMetrics) (n m l : Nat) (q : ℚ)
    (hf : r.followers = some n) (hv : r.averageViews = some m)
    (hl : r.averageLikes = some l) (he : r.engagementRate = some q)
    (hq : 0 ≤ q.num) :
    formatCellForExport r ⟨.followers, "Followers", true⟩ = standardNumberFormat n
    ∧ formatCellForExport r ⟨.averageViews, "Avg. Views", true⟩ = standardNumberFormat m
    ∧ formatCellForExport r ⟨.averageLikes, "Avg. Likes", true⟩ = standardNumberFormat l
    ∧ stripCommas (standardNumberFormat n) = digitsOf n
    ∧ '.' ∉ (standardNumberFormat n).data
    ∧ (∃ t : Nat, formatCellForExport r ⟨.engagementRate, "Eng. Rate", true⟩
        = digitsOf (t / 100) ++ "." ++ pad2 (t % 100)
      ∧ (pad2 (t % 100)).length = 2
      ∧ '.' ∉ (digitsOf (t / 100)).data) := by
  refine ⟨?_, ?_, ?_, strip_commas_standardNumberFormat n,
    dot_not_mem_standardNumberFormat n, ?_⟩
  · simp [formatCellForExport, hf]
  · simp [formatCellForExport, hv]
  · simp [formatCellForExport, hl]
  · refine ⟨((200 * q.num + (q.den : Int)).ediv (2 * (q.den : Int))).toNat,
      ?_, rfl, not_mem_digitsOf digitChar_ne_dot _⟩
    simp [formatCellForExport, he, toFixed2, toFixed2Core, not_lt.mpr hq, Int.ediv]

theorem c3_export_numeric_fields_witness :
    formatCellForExport nasaFull ⟨.followers, "Followers", true⟩ = standardNumberFormat 1000000
    ∧ formatCellForExport nasaFull ⟨.averageViews, "Avg. Views", true⟩ = standardNumberFormat 2000
    ∧ formatCellForExport nasaFull ⟨.averageLikes, "Avg. Likes", true⟩ = standardNumberFormat 150
    ∧ stripCommas (standardNumberFormat 1000000) = digitsOf 1000000
    ∧ '.' ∉ (standardNumberFormat 1000000).data
    ∧ (∃ t : Nat, formatCellForExport nasaFull ⟨.engagementRate, "Eng. Rate", true⟩
        = digitsOf (t / 100) ++ "." ++ pad2 (t % 100)
      ∧ (pad2 (t % 100)).length = 2
      ∧ '.' ∉ (digitsOf (t / 100)).data) :=
  c3_export_numeric_fields nasaFull 1000000 2000 150 nasaRate rfl rfl rfl rfl (by decide)

/-- C7 (counterexample) — the Excel row mapping passes the raw numbers
through: 1000000 followers becomes the numeric cell `1000000` (not the
compact string `"1M"`), and the engagement rate becomes the raw numeric
cell 3.456 (not the two-decimal string `"3.46"`). -/
theorem c7_raw_cells_counterexample :
    (formatSummary nasa).lookup "Followers" = some (.num 1000000)
    ∧ SheetCell.num 1000000 ≠ SheetCell.str "1M"
    ∧ (formatSummary nasa).lookup "Engagement Rate (%)" = some (.num nasaRate)
    ∧ SheetCell.num nasaRate ≠ SheetCell.str "3.46" := by
  refine ⟨by decide, by decide, by decide, by decide⟩

/-- C7 (amended) — Spreadsheet export mapping: `formatSummary` uses the
friendlier column labels, prefixes the handle with `@`, and passes
followers / averageViews / averageLikes and engagementRate through as raw,
unformatted numbers (empty string when absent) — it applies neither the
compact screen notation nor two-decimal fixed-point formatting; the Excel
export maps each record through this row mapping. -/
theorem c7_spreadsheet_mapping (r : InstagramMetrics) (n m l : Nat) (q : ℚ) :
    (formatSummary r).map Prod.fst =
      ["Name", "Handle", "Followers", "Avg. Views", "Avg. Likes",
        "Engagement Rate (%)", "Category", "Location"]
    ∧ (formatSummary r).lookup "Handle" = some (.str ("@" ++ r.handle))
    ∧ (r.followers = some n →
        (formatSummary r).lookup "Followers" = some (.num (n : ℚ)))
    ∧ (r.followers = none →
        (formatSummary r).lookup "Followers" = some (.str ""))
    ∧ (r.averageViews = some m →
        (formatSummary r).lookup "Avg. Views" = some (.num (m : ℚ)))
    ∧ (r.averageLikes = some l →
        (formatSummary r).lookup "Avg. Likes" = some (.num (l : ℚ)))
    ∧ (r.engagementRate = some q →
        (formatSummary r).lookup "Engagement Rate (%)" = some (.num q))
    ∧ exportExcelRows [r] = [formatSummary r] := by
  refine ⟨rfl, rfl, ?_, ?_, ?_, ?_, ?_, rfl⟩
  · intro h
    show some ((r.followers.map (fun n => SheetCell.num (n : ℚ))).getD (.str ""))
      = some (.num (n : ℚ))
    rw [h]
    rfl
  · intro h
    show some ((r.followers.map (fun n => SheetCell.num (n : ℚ))).getD (.str ""))
      = some (.str "")
    rw [h]
    rfl
  · intro h
    show some ((r.averageViews.map (fun n => SheetCell.num (n : ℚ))).getD (.str ""))
      = some (.num (m : ℚ))
    rw [h]
    rfl
  · intro h
    show some ((r.averageLikes.map (fun n => SheetCell.num (n : ℚ))).getD (.str ""))
      = some (.num (l : ℚ))
    rw [h]
    rfl
  · intro h
    show some ((r.engagementRate.map SheetCell.num).getD (.str "")) = some (.num q)
    rw [h]
    rfl

theorem c7_spreadsheet_mapping_witness :
    (formatSummary nasaFull).map Prod.fst =
      ["Name", "Handle", "Followers", "Avg. Views", "Avg. Likes",
        "Engagement Rate (%)", "Category", "Location"]
    ∧ (formatSummary nasaFull).lookup "Handle" = some (.str ("@" ++ nasaFull.handle))
    ∧ (formatSummary nasaFull).lookup "Followers" = some (.num ((1000000 : Nat) : ℚ))
    ∧ (formatSummary rowAbsent).lookup "Followers" = some (.str "")
    ∧ (formatSummary nasaFull).lookup "Avg. Views" = some (.num ((2000 : Nat) : ℚ))
    ∧ (formatSummary nasaFull).lookup "Avg. Likes" = some (.num ((150 : Nat) : ℚ))
    ∧ (formatSummary nasaFull).lookup "Engagement Rate (%)" = some (.num nasaRate)
    ∧ exportExcelRows [nasaFull] = [formatSummary nasaFull] :=
  ⟨(c7_spreadsheet_mapping nasaFull 1000000 2000 150 nasaRate).1,
    (c7_spreadsheet_mapping nasaFull 1000000 2000 150 nasaRate).2.1,
    (c7_spreadsheet_mapping nasaFull 1000000 2000 150 nasaRate).2.2.1 rfl,
    (c7_spreadsheet_mapping rowAbsent 0 0 0 0).2.2.2.1 rfl,
    (c7_spreadsheet_mapping nasaFull 1000000 2000 150 nasaRate).2.2.2.2.1 rfl,
    (c7_spreadsheet_mapping nasaFull 1000000 2000 150 nasaRate).2.2.2.2.2.1 rfl,
    (c7_spreadsheet_mapping nasaFull 1000000 2000 150 nasaRate).2.2.2.2.2.2.1 rfl,
    (c7_spreadsheet_mapping nasaFull 1000000 2000 150 nasaRate).2.2.2.2.2.2.2⟩

/-- C8 — Sort-independence of the delimited-text export: `exportCsv` reads
only the `rows` state, so for a fixed record list any two sort
specifications produce the identical CSV string, and the output is the
deterministic function of the records (and the fixed column order) given by
`exportCsvText`. -/
theorem c8_export_sort_independence (rows : List InstagramMetrics)
    (k₁ k₂ : ColumnKey) (o₁ o₂ : SortOrder) :
    exportCsv ⟨rows, k₁, o₁⟩ = exportCsv ⟨rows, k₂, o₂⟩
    ∧ exportCsv ⟨rows, k₁, o₁⟩
        = (if rows.isEmpty then none else some (exportCsvText rows)) :=
  ⟨rfl, rfl⟩
